import Mathlib

/-!
# Results.jsx: grouping, labels, notifications and workflow actions

A shallow embedding of `frontend/src/Results.jsx`.  The React component keeps its data in
`useState` cells; here they are the fields of `State`, and every handler of the component is a
function on `State`.  A remote call is represented by the outcome the network delivers for it,
passed in as an argument, and each handler returns the effects it had, in order, next to the
new state.

Numbers: cluster ids and counts are integers.  Where the source computes with them, in
`parseInt(clusterId) + 1`, the result of each step is rounded to binary64 and converted to a
string as the language defines it.  The sensitivity value and the thresholds it is compared
with are the decimals written in the source and on the slider, compared as rationals.
-/

namespace Results

/-! ## JavaScript values, property keys and `parseInt` -/

/-- The `cluster_id` field of an image record: absent, `null`, or an integer. -/
inductive ClusterId where
  | undefined
  | null
  | num (n : Int)
  deriving DecidableEq, Repr

/-- An image record of the `/images` response. -/
structure Image where
  id : Nat
  filename : String
  url : String
  cluster_id : ClusterId
  deriving DecidableEq, Repr

/-- Number-to-string conversion of an integer of magnitude up to `2 ^ 53`, as used when a
number becomes a property key or is concatenated to a string: all its decimal digits, a
leading minus sign for negatives. -/
def numberToString (n : Int) : String :=
  if n < 0 then "-" ++ Nat.repr n.natAbs else Nat.repr n.natAbs

/-- White space and line terminators that `parseInt` strips from the front of its input. -/
def isWhiteSpace (c : Char) : Bool :=
  c.toNat ∈ [0x09, 0x0A, 0x0B, 0x0C, 0x0D, 0x20, 0xA0, 0x1680, 0x2028, 0x2029,
    0x202F, 0x205F, 0x3000, 0xFEFF] || (0x2000 ≤ c.toNat && c.toNat ≤ 0x200A)

/-- The numeric value of a character read as a digit in some radix up to 36. -/
def digitValue (c : Char) : Option Nat :=
  if 48 ≤ c.toNat ∧ c.toNat ≤ 57 then some (c.toNat - 48)
  else if 97 ≤ c.toNat ∧ c.toNat ≤ 122 then some (c.toNat - 87)
  else if 65 ≤ c.toNat ∧ c.toNat ≤ 90 then some (c.toNat - 55)
  else none

/-- The value of `c` as a radix-`R` digit, if it is one. -/
def radixDigit (R : Nat) (c : Char) : Option Nat :=
  match digitValue c with
  | some d => if d < R then some d else none
  | none => none

/-- The values of the longest prefix of radix-`R` digits. -/
def takeDigits (R : Nat) : List Char → List Nat
  | [] => []
  | c :: cs =>
    match radixDigit R c with
    | some d => d :: takeDigits R cs
    | none => []

/-- The sign read by `parseInt` and the input behind it: a leading `-` makes the result
negative, and a leading `-` or `+` is removed. -/
def readSign (S : List Char) : Int × List Char :=
  (if S.head? = some '-' then -1 else 1,
   if S.head? = some '-' ∨ S.head? = some '+' then S.tail else S)

/-- The radix chosen by `parseInt` and the input behind the prefix: `0x` or `0X` selects
radix 16 and is removed, anything else leaves radix 10. -/
def readRadix (S : List Char) : Nat × List Char :=
  if S.take 2 = ['0', 'x'] ∨ S.take 2 = ['0', 'X'] then (16, S.drop 2) else (10, S)

/-- The mathematical integer `parseInt(s)` reads, with no radix argument, before it is turned
into a Number; `none` when there is no digit to read.  Leading white space is dropped, a sign
is read, a `0x`/`0X` prefix selects radix 16, and the longest prefix of digits is evaluated. -/
def parseIntMath (s : String) : Option Int :=
  let (sign, S) := readSign (s.data.dropWhile isWhiteSpace)
  let (R, S) := readRadix S
  let Z := takeDigits R S
  if Z.isEmpty then none else some (sign * (Z.foldl (fun a d => a * R + d) 0 : Nat))

/-! ## Numbers: binary64 rounding, addition and conversion to a string -/

/-- A Number whose value is an integer, an infinity or `NaN`: the values `parseInt` returns
and the sums of such values. -/
inductive JSNumber where
  | nan
  | infinity (negative : Bool)
  | int (n : Int)
  deriving DecidableEq, Repr

/-- The least exponent `e`, counted up from the given one, with `c / 2 ^ e < 2 ^ 53`. -/
def exponentFrom (c : Nat) : Nat → Nat → Nat
  | 0, e => e
  | fuel + 1, e => if c / 2 ^ e < 2 ^ 53 then e else exponentFrom c fuel (e + 1)

/-- Rounding of a natural number to a 53-bit significand, to nearest and on a tie to the even
significand: the binary64 value of `c`, before the overflow check. -/
def roundBinary64 (c : Nat) : Nat :=
  let e := exponentFrom c c 0
  let q := c / 2 ^ e
  let r := c % 2 ^ e
  if 2 * r > 2 ^ e ∨ (2 * r = 2 ^ e ∧ q % 2 = 1) then (q + 1) * 2 ^ e else q * 2 ^ e

/-- The Number for a mathematical integer: its binary64 rounding, or an infinity when that
reaches `2 ^ 1024`, which is when its 53-bit significand needs an exponent above 971. -/
def toNumber (m : Int) : JSNumber :=
  if exponentFrom (roundBinary64 m.natAbs) (roundBinary64 m.natAbs) 0 ≤ 971 then
    .int (if m < 0 then -(roundBinary64 m.natAbs : Int) else (roundBinary64 m.natAbs : Int))
  else .infinity (decide (m < 0))

/-- The call `parseInt(s)` with no radix argument: the integer read, as a Number, or `NaN`.
The digits are taken at their exact value before rounding, however many there are. -/
def parseInt (s : String) : JSNumber :=
  match parseIntMath s with
  | some m => toNumber m
  | none => .nan

/-- The sum `x + y` of two Numbers: the exact sum of two integers rounded to binary64. -/
def JSNumber.add : JSNumber → JSNumber → JSNumber
  | .nan, _ => .nan
  | _, .nan => .nan
  | .infinity a, .infinity b => if a = b then .infinity a else .nan
  | .infinity a, .int _ => .infinity a
  | .int _, .infinity b => .infinity b
  | .int a, .int b => toNumber (a + b)

/-- The decimal tried at exponent `j`: of the two multiples of `10 ^ j` next to `x`, one
that rounds to `x`; when both do, the closer one, and on a tie the one whose last
significant digit is even. -/
def shortestAt (x j : Nat) : Option Nat :=
  let lo := x / 10 ^ j * 10 ^ j
  let hi := lo + 10 ^ j
  let okLo : Bool := decide (lo ≠ 0) && decide (roundBinary64 lo = x)
  let okHi : Bool := decide (roundBinary64 hi = x)
  if okLo && okHi then
    if x - lo < hi - x then some lo
    else if hi - x < x - lo then some hi
    else if (x / 10 ^ j) % 2 = 0 then some lo
    else some hi
  else if okLo then some lo
  else if okHi then some hi
  else none

/-- The search for the decimal with the fewest significant digits that rounds to `x`, from
exponent `j` down to 0, where `x` itself is taken. -/
def shortestFrom (x : Nat) : Nat → Nat
  | 0 => x
  | j + 1 =>
    match shortestAt x (j + 1) with
    | some c => c
    | none => shortestFrom x j

/-- The decimal `s × 10 ^ (n - k)` of Number-to-string conversion for a positive integer
Number `x`: fewest significant digits `k`, rounding to `x`, closest to `x`. -/
def shortestDecimal (x : Nat) : Nat :=
  shortestFrom x ((Nat.toDigits 10 x).length - 1)

/-- Number-to-string conversion of a non-negative integer Number: the digits of the shortest
decimal, written out in full below `10 ^ 21` and in exponent form from there on. -/
def magnitudeToString (x : Nat) : String :=
  let c := shortestDecimal x
  if c < 10 ^ 21 then Nat.repr c
  else
    match ((Nat.toDigits 10 c).reverse.dropWhile (· = '0')).reverse with
    | [] => "0"
    | [d] => [d].asString ++ "e+" ++ Nat.repr ((Nat.toDigits 10 c).length - 1)
    | d :: rest =>
      (d :: '.' :: rest).asString ++ "e+" ++ Nat.repr ((Nat.toDigits 10 c).length - 1)

/-- Number-to-string conversion, as in `'group_' + x`. -/
def JSNumber.toString : JSNumber → String
  | .nan => "NaN"
  | .infinity false => "Infinity"
  | .infinity true => "-Infinity"
  | .int n => if n < 0 then "-" ++ magnitudeToString n.natAbs else magnitudeToString n.natAbs

/-! ## Plain objects used as maps -/

/-- A plain object: its own properties, in insertion order. -/
abbrev Obj (α : Type) := List (String × α)

/-- Property read `o[k]`; `none` stands for `undefined`. -/
def Obj.get {α : Type} (o : Obj α) (k : String) : Option α :=
  match o with
  | [] => none
  | (k', v) :: rest => if k' = k then some v else Obj.get rest k

/-- Property write `o[k] = v`: an existing property keeps its place, a new one goes last. -/
def Obj.set {α : Type} (o : Obj α) (k : String) (v : α) : Obj α :=
  match o with
  | [] => [(k, v)]
  | (k', v') :: rest => if k' = k then (k, v) :: rest else (k', v') :: Obj.set rest k v

/-- The own property names of an object, in insertion order. -/
def Obj.keys {α : Type} (o : Obj α) : List String := o.map Prod.fst

/-- The array index a property name stands for, if it is one: the canonical decimal
rendering of an integer from 0 to 2^32 - 2. -/
def arrayIndex (k : String) : Option Nat :=
  match parseIntMath k with
  | some (Int.ofNat n) => if Nat.repr n = k ∧ n < 4294967295 then some n else none
  | _ => none

/-- The call `Object.keys(o)`: first the array indices in ascending numeric order, then the
other property names in insertion order. -/
def objectKeys {α : Type} (o : Obj α) : List String :=
  (((Obj.keys o).filterMap arrayIndex).insertionSort (· ≤ ·)).map Nat.repr ++
    (Obj.keys o).filter (fun k => (arrayIndex k).isNone)

/-! ## The grouping loop of `fetchImages` (lines 50-58) -/

/-- One iteration of `data.images.forEach`: an image with a `cluster_id` that is neither
`null` nor `undefined` is pushed onto the array stored under that id, which is created
empty first when the object has no such property. -/
def groupStep (groupedClusters : Obj (List Image)) (img : Image) : Obj (List Image) :=
  match img.cluster_id with
  | .num n =>
    let key := numberToString n
    let g :=
      if (Obj.get groupedClusters key).isNone then Obj.set groupedClusters key []
      else groupedClusters
    Obj.set g key ((Obj.get g key).getD [] ++ [img])
  | .null => groupedClusters
  | .undefined => groupedClusters

/-- The property key under which the loop files an image, if it files it at all. -/
def groupKey (img : Image) : Option String :=
  match img.cluster_id with
  | .num n => some (numberToString n)
  | .null => none
  | .undefined => none

/-- The object `groupedClusters` after the loop over `data.images`. -/
def groupImages (images : List Image) : Obj (List Image) :=
  images.foldl groupStep []

/-- The value rendered as "Clusters Found": `Object.keys(clusters).length`. -/
def clusterCount (clusters : Obj (List Image)) : Nat := (objectKeys clusters).length

/-- The example list of the specification. -/
def exampleImages : List Image :=
  [⟨1, "a.png", "/a.png", .num 0⟩, ⟨2, "b.png", "/b.png", .num 0⟩,
    ⟨3, "c.png", "/c.png", .null⟩]

/-! ## Component state (lines 5-11) -/

/-- The `toast` cell: `{ show, message, type }`. -/
structure Toast where
  show_ : Bool
  message : String
  type : String
  deriving DecidableEq, Repr

/-- The body of a `/cluster/stats/{id}` response. -/
structure ClusterStats where
  similarity_percent : ℚ
  coherence : String
  deriving DecidableEq, Repr

/-- The `useState` cells of the component. -/
structure State where
  clusters : Obj (List Image)
  clusterStats : Obj ClusterStats
  loading : Bool
  epsValue : ℚ
  totalImages : Int
  selectedImage : Option String
  toast : Toast

/-- The state of a freshly mounted component. -/
def initialState : State :=
  { clusters := [], clusterStats := [], loading := false, epsValue := 0.25, totalImages := 0,
    selectedImage := none, toast := { show_ := false, message := "", type := "success" } }

/-! ## Remote calls and other effects -/

/-- What a `fetch` delivers: the promise rejects with an error carrying `message`, or a
response arrives with its `ok` flag and the result of reading its body (the parsed value, or
the message of the error thrown by the reader). -/
inductive Fetched (β : Type) where
  | rejected (message : String)
  | response (ok : Bool) (body : Except String β)

/-- The requests the component sends. -/
inductive Request where
  | getImages
  | getClusterStats (clusterId : String)
  | cluster (eps : ℚ) (min_samples : Nat)
  | upload (file : String)
  | clear
  | downloadCluster (clusterId : String)
  deriving DecidableEq

/-- What a handler does to the outside world, in order. -/
inductive Effect where
  | request (r : Request)
  | consoleError (label : String)
  | saveFile (download : String)
  deriving DecidableEq

/-- The requests among a list of effects, in order. -/
def requestsOf : List Effect → List Request
  | [] => []
  | .request r :: rest => r :: requestsOf rest
  | _ :: rest => requestsOf rest

/-- The body of an `/images` response. -/
structure ImagesData where
  total : Int
  images : List Image

/-- The body of a `/cluster` response: `detail` on a refusal, `num_clusters` on success. -/
structure ClusterBody where
  detail : Option String
  num_clusters : Option Int

/-! ## Notifications (lines 31-42) -/

/-- The handler `showToast`: `setToast({ show: true, message, type })`. -/
def showToast (message type : String) (s : State) : State :=
  { s with toast := { show_ := true, message := message, type := type } }

/-- A timeout registered by the effect of lines 31-38: when it is due, and the `toast` value
its callback closed over. -/
structure Timeout where
  due : Nat
  captured : Toast
  deriving DecidableEq, Repr

/-- The toast cell together with the clock and the pending timeout of the effect. -/
structure ToastCell where
  now : Nat
  toast : Toast
  timer : Option Timeout
  deriving DecidableEq, Repr

/-- The effect of lines 31-38 after a render in which `toast` became `next`.  Its dependency
list is `[toast.show]`: when `show` is what it was at the previous render the effect is
skipped and the pending timeout stays.  Otherwise the previous cleanup clears the timeout,
and when `show` is true a timeout is registered 3000 ms ahead, closing over `next`. -/
def ToastCell.render (c : ToastCell) (next : Toast) : ToastCell :=
  if next.show_ = c.toast.show_ then { c with toast := next }
  else if next.show_ then
    { c with toast := next, timer := some { due := c.now + 3000, captured := next } }
  else { c with toast := next, timer := none }

/-- The timeout callback `setToast({ ...toast, show: false })`, run when the timeout is due. -/
def ToastCell.fire (c : ToastCell) (t : Timeout) : ToastCell :=
  ToastCell.render { c with now := t.due, timer := none } { t.captured with show_ := false }

/-- Let the clock reach time `t`: a timeout due by then runs first. -/
def ToastCell.advance (c : ToastCell) (t : Nat) : ToastCell :=
  match c.timer with
  | some tm => if tm.due ≤ t then { ToastCell.fire c tm with now := t } else { c with now := t }
  | none => { c with now := t }

/-- The call `showToast(message, type)` issued at time `t`. -/
def ToastCell.showToast (c : ToastCell) (t : Nat) (message type : String) : ToastCell :=
  ToastCell.render (ToastCell.advance c t) { show_ := true, message := message, type := type }

/-- The cell of a freshly mounted component at time 0. -/
def ToastCell.initial : ToastCell :=
  { now := 0, toast := { show_ := false, message := "", type := "success" }, timer := none }

/-! ## `fetchImages` and `fetchClusterStats` (lines 44-79) -/

/-- The handler `fetchImages`, given what the `/images` request delivers.  The statistics
requests it starts are not awaited; they are listed among the effects and settle later
through `fetchClusterStats`.  Any error is caught and logged. -/
def fetchImages (s : State) (r : Fetched ImagesData) : State × List Effect :=
  match r with
  | .response _ (.ok data) =>
    let groupedClusters := groupImages data.images
    ({ s with totalImages := data.total, clusters := groupedClusters },
      .request .getImages ::
        (objectKeys groupedClusters).map (fun clusterId => .request (.getClusterStats clusterId)))
  | .response _ (.error _) => (s, [.request .getImages, .consoleError "Error fetching images:"])
  | .rejected _ => (s, [.request .getImages, .consoleError "Error fetching images:"])

/-- The body of the `try` block of `fetchClusterStats`: the new state, or the error thrown. -/
def fetchClusterStatsTry (s : State) (clusterId : String) (r : Fetched ClusterStats) :
    Except String State :=
  match r with
  | .rejected message => .error message
  | .response _ (.error message) => .error message
  | .response _ (.ok data) =>
    .ok { s with clusterStats := Obj.set s.clusterStats clusterId data }

/-- The handler `fetchClusterStats` once its request has settled: the result of the `try`
block, with the `catch` block turning a thrown error into a log line. -/
def fetchClusterStats (s : State) (clusterId : String) (r : Fetched ClusterStats) :
    Except String (State × List Effect) :=
  match fetchClusterStatsTry s clusterId r with
  | .ok s' => .ok (s', [])
  | .error _ => .ok (s, [.consoleError "Error fetching stats:"])

/-- The statistics requests of one refresh settling one after another in the order `order`,
each with the outcome `outcome` gives for its cluster id. -/
def settleStats (outcome : String → Fetched ClusterStats) :
    List String → State → Except String State
  | [], s => .ok s
  | clusterId :: rest, s =>
    match fetchClusterStats s clusterId (outcome clusterId) with
    | .ok (s', _) => settleStats outcome rest s'
    | .error e => .error e

/-! ## `performClustering` (lines 81-100) -/

/-- The text a string concatenation gives for an integer that may be missing. -/
def numberText (undefinedText : String) : Option Int → String
  | some n => numberToString n
  | none => undefinedText

/-- The body of the `try` block of `performClustering`: the effects up to the point reached,
and the new state or the message of the error thrown. -/
def performClusteringTry (s : State) (r : Fetched ClusterBody) (images : Fetched ImagesData) :
    Except String State × List Effect :=
  let sent := Effect.request (.cluster s.epsValue 2)
  match r with
  | .rejected message => (.error message, [sent])
  | .response _ (.error message) => (.error message, [sent])
  | .response false (.ok error) =>
    (.error (match error.detail with
      | some detail => if detail = "" then "Clustering failed" else detail
      | none => "Clustering failed"), [sent])
  | .response true (.ok data) =>
    let (s', effects) := fetchImages s images
    (.ok (showToast ("✨ Found " ++ numberText "undefined" data.num_clusters ++ " clusters!")
      "success" s'), sent :: effects)

/-- The handler `performClustering`: `loading` is set, the `try` block runs, the `catch` block
shows the error's message, and the `finally` block clears `loading`. -/
def performClustering (s : State) (r : Fetched ClusterBody) (images : Fetched ImagesData) :
    State × List Effect :=
  let s1 := { s with loading := true }
  match performClusteringTry s1 r images with
  | (.ok s2, effects) => ({ s2 with loading := false }, effects)
  | (.error message, effects) =>
    ({ showToast ("❌ " ++ message) "error" s1 with loading := false },
      effects ++ [.consoleError "Clustering error:"])

/-- The `disabled` attribute of the "Cluster Images" button (line 210). -/
def clusterButtonDisabled (s : State) : Bool :=
  s.loading || decide (s.totalImages < 2)

/-- A click on the "Cluster Images" button: a disabled button dispatches no click event, an
enabled one runs its `onClick` handler `performClustering`. -/
def clickClusterImages (s : State) (r : Fetched ClusterBody) (images : Fetched ImagesData) :
    State × List Effect :=
  if clusterButtonDisabled s then (s, []) else performClustering s r images

/-! ## `handleFileUpload` (lines 102-118) -/

/-- One iteration of the upload loop: the request is sent, and a rejection is caught and
logged. -/
def uploadOne (file : String) (r : Fetched Unit) : List Effect :=
  match r with
  | .rejected _ => [.request (.upload file), .consoleError "Upload error:"]
  | .response _ _ => [.request (.upload file)]

/-- The `for ... of` loop over the files, each paired with what its request delivers. -/
def uploadLoop : List (String × Fetched Unit) → List Effect
  | [] => []
  | (file, r) :: rest => uploadOne file r ++ uploadLoop rest

/-- The handler `handleFileUpload`; `files` pairs each selected file with what its upload
request delivers, and `images` is what the refresh delivers. -/
def handleFileUpload (s : State) (files : List (String × Fetched Unit))
    (images : Fetched ImagesData) : State × List Effect :=
  if files.length = 0 then (s, [])
  else
    let s1 := { s with loading := true }
    let uploads := uploadLoop files
    let (s2, refresh) := fetchImages s1 images
    let s3 := { s2 with loading := false }
    (showToast ("✅ Uploaded " ++ numberToString files.length ++ " image(s)") "success" s3,
      uploads ++ refresh)

/-! ## `clearAll` (lines 120-131) -/

/-- The handler `clearAll`; `confirmed` is the answer to `window.confirm`, and `r` what the
`DELETE /clear` request delivers. -/
def clearAll (s : State) (confirmed : Bool) (r : Fetched Unit) : State × List Effect :=
  if !confirmed then (s, [])
  else
    match r with
    | .rejected _ => (s, [.request .clear, .consoleError "Clear error:"])
    | .response _ _ =>
      (showToast "🗑️ All data cleared" "success"
        { s with clusters := [], clusterStats := [], totalImages := 0 }, [.request .clear])

/-! ## `downloadCluster` (lines 133-151) -/

/-- The value of `a.download`: `'group_' + (parseInt(clusterId) + 1) + '.zip'`. -/
def downloadName (clusterId : String) : String :=
  "group_" ++ JSNumber.toString (JSNumber.add (parseInt clusterId) (.int 1)) ++ ".zip"

/-- The handler `downloadCluster`, given what the download request delivers. -/
def downloadCluster (s : State) (clusterId : String) (r : Fetched Unit) :
    State × List Effect :=
  let s1 := showToast "⏳ Preparing download..." "success" s
  let sent := Effect.request (.downloadCluster clusterId)
  match r with
  | .response true (.ok _) =>
    (showToast "✅ Downloaded!" "success" s1, [sent, .saveFile (downloadName clusterId)])
  | .response true (.error _) => (showToast "❌ Download failed" "error" s1, [sent])
  | .response false _ => (showToast "❌ Download failed" "error" s1, [sent])
  | .rejected _ => (showToast "❌ Download failed" "error" s1, [sent])

/-! ## `getSensitivityLabel` (lines 153-159) -/

/-- The helper `getSensitivityLabel`, as a function of the `epsValue` cell it reads. -/
def getSensitivityLabel (epsValue : ℚ) : String :=
  if epsValue ≤ 0.15 then "Very Strict"
  else if epsValue ≤ 0.20 then "Strict"
  else if epsValue ≤ 0.25 then "Balanced"
  else if epsValue ≤ 0.30 then "Loose"
  else "Very Loose"

/-- The values the sensitivity slider can take: from 0.10 to 0.40 in steps of 0.05. -/
def sliderValues : List ℚ := [0.10, 0.15, 0.20, 0.25, 0.30, 0.35, 0.40]

/-- The parsed body a `fetch` ends with, when the request was not rejected and the body
could be read. -/
def Fetched.value {β : Type} : Fetched β → Option β
  | .response _ (.ok data) => some data
  | .response _ (.error _) => none
  | .rejected _ => none

/-! ## Sample inputs -/

/-- A client state holding one group, its statistics and one image. -/
def populatedState : State :=
  { initialState with
    clusters := [("0", [⟨1, "a.png", "/a.png", .num 0⟩])]
    clusterStats := [("0", ⟨90, "good"⟩)]
    totalImages := 1 }

/-- A list with one image in cluster 0 and one in cluster 1. -/
def twoClusterImages : List Image :=
  [⟨1, "a.png", "/a.png", .num 0⟩, ⟨2, "b.png", "/b.png", .num 1⟩]

/-- The statistics request for cluster `0` is rejected, every other one is answered. -/
def statsOutcome (clusterId : String) : Fetched ClusterStats :=
  if clusterId = "0" then .rejected "Failed to fetch"
  else .response true (.ok ⟨75, "moderate"⟩)

/-! # Lemmas -/

/-! ## Decimal keys: reading the digits inverts `numberToString` -/

theorem digitChar_facts : ∀ d, d < 10 →
    radixDigit 10 (Nat.digitChar d) = some d ∧ isWhiteSpace (Nat.digitChar d) = false ∧
    Nat.digitChar d ≠ '-' ∧ Nat.digitChar d ≠ '+' ∧ Nat.digitChar d ≠ 'x' ∧
    Nat.digitChar d ≠ 'X' := by
  decide

/-- The characters `Nat.toDigitsCore` puts in front of its accumulator are the decimal digits
of `n`, most significant first. -/
theorem toDigitsCore_digits (fuel : Nat) : ∀ (n : Nat) (ds : List Char), n < fuel →
    ∃ xs : List Nat, xs ≠ [] ∧ (∀ d ∈ xs, d < 10) ∧
      Nat.toDigitsCore 10 fuel n ds = xs.map Nat.digitChar ++ ds ∧
      xs.foldl (fun a d => a * 10 + d) 0 = n := by
  induction fuel with
  | zero => intro n ds h; omega
  | succ fuel ih =>
    intro n ds h
    by_cases hq : n / 10 = 0
    · refine ⟨[n], by simp, ?_, ?_, by simp⟩
      · intro d hd
        simp only [List.mem_singleton] at hd
        omega
      · have hn : n % 10 = n := by omega
        simp [Nat.toDigitsCore, hq, hn]
    · have hlt : n / 10 < fuel := by omega
      obtain ⟨xs, hne, hlt10, hcore, hval⟩ :=
        ih (n / 10) (Nat.digitChar (n % 10) :: ds) hlt
      refine ⟨xs ++ [n % 10], by simp, ?_, ?_, ?_⟩
      · intro d hd
        rcases List.mem_append.mp hd with h1 | h1
        · exact hlt10 d h1
        · simp only [List.mem_singleton] at h1
          omega
      · simp [Nat.toDigitsCore, hq, hcore]
      · rw [List.foldl_append, hval]
        simp only [List.foldl_cons, List.foldl_nil]
        omega

theorem takeDigits_map_digitChar : ∀ xs : List Nat, (∀ d ∈ xs, d < 10) →
    takeDigits 10 (xs.map Nat.digitChar) = xs := by
  intro xs
  induction xs with
  | nil => intro _; rfl
  | cons d xs ih =>
    intro h
    have hd := (digitChar_facts d (h d (List.mem_cons_self d xs))).1
    simp only [List.map_cons, takeDigits, hd]
    rw [ih (fun e he => h e (List.mem_cons_of_mem d he))]

/-- The decimal rendering of a natural number is made of digits whose value is the number. -/
theorem takeDigits_data_repr (n : Nat) :
    ∃ c cs, (Nat.repr n).data = c :: cs ∧ isWhiteSpace c = false ∧ c ≠ '-' ∧ c ≠ '+' ∧
      cs.head? ≠ some 'x' ∧ cs.head? ≠ some 'X' ∧
      ((takeDigits 10 (c :: cs)).foldl (fun a d => a * 10 + d) 0 = n) ∧
      takeDigits 10 (c :: cs) ≠ [] := by
  obtain ⟨xs, hne, hlt, hcore, hval⟩ := toDigitsCore_digits (n + 1) n [] (by omega)
  have hdata : (Nat.repr n).data = xs.map Nat.digitChar := by
    simp [Nat.repr, Nat.toDigits, hcore, List.asString]
  have htake := takeDigits_map_digitChar xs hlt
  match xs, hne with
  | d :: rest, _ =>
    have hd := digitChar_facts d (hlt d (List.mem_cons_self d rest))
    refine ⟨Nat.digitChar d, rest.map Nat.digitChar, by simpa using hdata, hd.2.1, hd.2.2.1,
      hd.2.2.2.1, ?_, ?_, ?_, ?_⟩
    · cases rest with
      | nil => simp
      | cons e r =>
        have he := digitChar_facts e (hlt e (by simp))
        simpa using he.2.2.2.2.1
    · cases rest with
      | nil => simp
      | cons e r =>
        have he := digitChar_facts e (hlt e (by simp))
        simpa using he.2.2.2.2.2
    · rw [← List.map_cons, htake]; exact hval
    · rw [← List.map_cons, htake]; simp

theorem parseIntMath_of_digits (c : Char) (cs : List Char) (n : Nat)
    (hws : isWhiteSpace c = false) (hm : c ≠ '-') (hp : c ≠ '+')
    (hx : cs.head? ≠ some 'x') (hX : cs.head? ≠ some 'X')
    (hval : (takeDigits 10 (c :: cs)).foldl (fun a d => a * 10 + d) 0 = n)
    (hne : takeDigits 10 (c :: cs) ≠ []) :
    parseIntMath ⟨c :: cs⟩ = some (n : Int) ∧
      parseIntMath ⟨'-' :: c :: cs⟩ = some (-(n : Int)) := by
  have hradix : readRadix (c :: cs) = (10, c :: cs) := by
    have hhex : ¬ ((c :: cs).take 2 = ['0', 'x'] ∨ (c :: cs).take 2 = ['0', 'X']) := by
      cases cs with
      | nil => simp
      | cons e r =>
        simp only [List.head?_cons, ne_eq, Option.some.injEq] at hx hX
        simp [hx, hX]
    simp only [readRadix, hhex, if_false]
  have hempty : (takeDigits 10 (c :: cs)).isEmpty = false := by
    cases h : takeDigits 10 (c :: cs) with
    | nil => exact absurd h hne
    | cons a b => rfl
  constructor
  · have h1 : List.dropWhile isWhiteSpace (c :: cs) = c :: cs := by
      simp [List.dropWhile, hws]
    have h2 : readSign (c :: cs) = (1, c :: cs) := by
      simp [readSign, hm, hp]
    simp only [parseIntMath, h1, h2, hradix, hempty, hval, one_mul, Bool.false_eq_true, if_false]
  · have h1 : List.dropWhile isWhiteSpace ('-' :: c :: cs) = '-' :: c :: cs := by
      simp [List.dropWhile, show isWhiteSpace '-' = false by decide]
    have h2 : readSign ('-' :: c :: cs) = (-1, c :: cs) := by
      simp [readSign]
    simp only [parseIntMath, h1, h2, hradix, hempty, hval, neg_mul, one_mul, Bool.false_eq_true,
      if_false]

/-- Reading a key back digit by digit gives the integer it was made from. -/
theorem parseIntMath_numberToString (n : Int) :
    parseIntMath (numberToString n) = some n := by
  obtain ⟨c, cs, hdata, hws, hm, hp, hx, hX, hval, hne⟩ := takeDigits_data_repr n.natAbs
  have h := parseIntMath_of_digits c cs n.natAbs hws hm hp hx hX hval hne
  have hrepr : Nat.repr n.natAbs = ⟨c :: cs⟩ := by
    rw [← hdata]
  unfold numberToString
  split
  · next hneg =>
    have : ("-" ++ Nat.repr n.natAbs : String) = ⟨'-' :: c :: cs⟩ := by
      rw [hrepr]; rfl
    rw [this, h.2]
    congr 1
    omega
  · next hpos =>
    rw [hrepr, h.1]
    congr 1
    omega

/-- Distinct integers give distinct property keys. -/
theorem numberToString_injective {m n : Int} (h : numberToString m = numberToString n) :
    m = n := by
  have h1 := parseIntMath_numberToString m
  rw [h, parseIntMath_numberToString n] at h1
  exact (Option.some.inj h1).symm

/-! ## Lemmas on objects -/

theorem Obj.get_set_self {α : Type} (o : Obj α) (k : String) (v : α) :
    Obj.get (Obj.set o k v) k = some v := by
  induction o with
  | nil => simp [Obj.set, Obj.get]
  | cons p rest ih =>
    obtain ⟨k', v'⟩ := p
    by_cases h : k' = k
    · simp [Obj.set, Obj.get, h]
    · simp [Obj.set, Obj.get, h, ih]

theorem Obj.get_set_other {α : Type} (o : Obj α) (k k' : String) (v : α) (h : k' ≠ k) :
    Obj.get (Obj.set o k v) k' = Obj.get o k' := by
  induction o with
  | nil => simp [Obj.set, Obj.get, Ne.symm h]
  | cons p rest ih =>
    obtain ⟨k1, v1⟩ := p
    by_cases h1 : k1 = k
    · subst h1
      simp [Obj.set, Obj.get, Ne.symm h]
    · simp [Obj.set, Obj.get, h1, ih]

theorem Obj.get_eq_none_iff {α : Type} (o : Obj α) (k : String) :
    Obj.get o k = none ↔ k ∉ Obj.keys o := by
  induction o with
  | nil => simp [Obj.get, Obj.keys]
  | cons p rest ih =>
    obtain ⟨k1, v1⟩ := p
    by_cases h1 : k1 = k
    · simp [Obj.get, Obj.keys, h1]
    · have ih2 : Obj.get rest k = none ↔ k ∉ List.map Prod.fst rest := ih
      simp [Obj.get, Obj.keys, h1, ih2, Ne.symm h1]

theorem Obj.keys_set {α : Type} (o : Obj α) (k : String) (v : α) :
    Obj.keys (Obj.set o k v) = if k ∈ Obj.keys o then Obj.keys o else Obj.keys o ++ [k] := by
  induction o with
  | nil => simp [Obj.set, Obj.keys]
  | cons p rest ih =>
    obtain ⟨k1, v1⟩ := p
    by_cases h1 : k1 = k
    · simp [Obj.set, Obj.keys, h1]
    · have ih2 : List.map Prod.fst (Obj.set rest k v) =
          if k ∈ List.map Prod.fst rest then List.map Prod.fst rest
          else List.map Prod.fst rest ++ [k] := ih
      simp only [Obj.set, h1, if_false, Obj.keys, List.map_cons, ih2, List.mem_cons,
        Ne.symm h1, false_or]
      split <;> simp

theorem Obj.nodup_keys_set {α : Type} (o : Obj α) (k : String) (v : α)
    (h : (Obj.keys o).Nodup) : (Obj.keys (Obj.set o k v)).Nodup := by
  rw [Obj.keys_set]
  split
  · exact h
  · next hk =>
    rw [List.nodup_append]
    refine ⟨h, by simp, ?_⟩
    intro a ha hb
    simp only [List.mem_singleton] at hb
    subst hb
    exact absurd ha hk

theorem Obj.get_of_mem {α : Type} (o : Obj α) (k : String) (v : α)
    (hnd : (Obj.keys o).Nodup) (hmem : (k, v) ∈ o) : Obj.get o k = some v := by
  induction o with
  | nil => simp at hmem
  | cons p rest ih =>
    obtain ⟨k1, v1⟩ := p
    simp only [Obj.keys, List.map_cons, List.nodup_cons] at hnd
    rcases List.mem_cons.mp hmem with h | h
    · cases h
      simp [Obj.get]
    · have hk : k1 ≠ k := by
        intro e
        subst e
        exact hnd.1 (List.mem_map.mpr ⟨(k1, v), h, rfl⟩)
      simp only [Obj.get, hk, if_false]
      exact ih hnd.2 h

theorem Obj.mem_of_get {α : Type} (o : Obj α) (k : String) (v : α)
    (h : Obj.get o k = some v) : (k, v) ∈ o := by
  induction o with
  | nil => simp [Obj.get] at h
  | cons p rest ih =>
    obtain ⟨k1, v1⟩ := p
    by_cases h1 : k1 = k
    · simp only [Obj.get, h1, if_true, Option.some.injEq] at h
      simp [h1, h]
    · simp only [Obj.get, h1, if_false] at h
      exact List.mem_cons_of_mem _ (ih h)

/-! ## Lemmas on the grouping loop -/

theorem get_groupStep (g : Obj (List Image)) (img : Image) (k : String) :
    Obj.get (groupStep g img) k =
      if groupKey img = some k then some ((Obj.get g k).getD [] ++ [img]) else Obj.get g k := by
  cases hc : img.cluster_id with
  | undefined => simp [groupStep, groupKey, hc]
  | null => simp [groupStep, groupKey, hc]
  | num n =>
    by_cases hk : numberToString n = k
    · subst hk
      simp only [groupStep, groupKey, hc, if_true, Obj.get_set_self]
      cases hg : Obj.get g (numberToString n) with
      | none => simp [Obj.get_set_self]
      | some arr => simp [hg]
    · simp only [groupStep, groupKey, hc, Option.some.injEq, hk, if_false]
      rw [Obj.get_set_other _ _ _ _ (Ne.symm hk)]
      split
      · rw [Obj.get_set_other _ _ _ _ (Ne.symm hk)]
      · rfl

theorem nodup_keys_groupStep (g : Obj (List Image)) (img : Image)
    (h : (Obj.keys g).Nodup) : (Obj.keys (groupStep g img)).Nodup := by
  cases hc : img.cluster_id with
  | undefined => simpa [groupStep, hc] using h
  | null => simpa [groupStep, hc] using h
  | num n =>
    simp only [groupStep, hc]
    apply Obj.nodup_keys_set
    split
    · exact Obj.nodup_keys_set _ _ _ h
    · exact h

theorem get_foldl_groupStep (images : List Image) :
    ∀ (g : Obj (List Image)) (k : String),
      Obj.get (images.foldl groupStep g) k =
        if images.filter (fun i => groupKey i = some k) = [] then Obj.get g k
        else some ((Obj.get g k).getD [] ++ images.filter (fun i => groupKey i = some k)) := by
  induction images with
  | nil => intro g k; simp
  | cons img rest ih =>
    intro g k
    rw [List.foldl_cons, ih (groupStep g img) k, get_groupStep]
    by_cases hk : groupKey img = some k
    · simp [hk, List.filter_cons]
    · simp [hk, List.filter_cons]

theorem nodup_keys_foldl_groupStep (images : List Image) :
    ∀ g : Obj (List Image), (Obj.keys g).Nodup →
      (Obj.keys (images.foldl groupStep g)).Nodup := by
  induction images with
  | nil => intro g h; simpa using h
  | cons img rest ih =>
    intro g h
    rw [List.foldl_cons]
    exact ih _ (nodup_keys_groupStep g img h)

theorem groupKey_eq_iff (img : Image) (c : Int) :
    groupKey img = some (numberToString c) ↔ img.cluster_id = .num c := by
  cases hc : img.cluster_id with
  | undefined => simp [groupKey, hc]
  | null => simp [groupKey, hc]
  | num n =>
    simp only [groupKey, hc, Option.some.injEq, ClusterId.num.injEq]
    exact ⟨numberToString_injective, fun h => by rw [h]⟩

/-- The array stored under key `k` after the loop is the sublist of the images filed under
`k`, and there is no property `k` when no image is filed under it. -/
theorem get_groupImages (images : List Image) (k : String) :
    Obj.get (groupImages images) k =
      if images.filter (fun i => groupKey i = some k) = [] then none
      else some (images.filter (fun i => groupKey i = some k)) := by
  unfold groupImages
  rw [get_foldl_groupStep]
  simp [Obj.get]

theorem nodup_keys_groupImages (images : List Image) :
    (Obj.keys (groupImages images)).Nodup :=
  nodup_keys_foldl_groupStep images [] (by simp [Obj.keys])

/-! ## `Object.keys` lists every own property name once -/

theorem arrayIndex_repr {k : String} {n : Nat} (h : arrayIndex k = some n) : Nat.repr n = k := by
  unfold arrayIndex at h
  split at h
  · split at h
    · next hc =>
      simp only [Option.some.injEq] at h
      subst h
      exact hc.1
    · exact absurd h (by simp)
  · exact absurd h (by simp)

theorem map_repr_filterMap_arrayIndex (l : List String) :
    (l.filterMap arrayIndex).map Nat.repr = l.filter (fun k => (arrayIndex k).isSome) := by
  induction l with
  | nil => rfl
  | cons k rest ih =>
    cases h : arrayIndex k with
    | none => simp [List.filterMap_cons, List.filter_cons, h, ih]
    | some n => simp [List.filterMap_cons, List.filter_cons, h, ih, arrayIndex_repr h]

theorem objectKeys_perm {α : Type} (o : Obj α) : (objectKeys o).Perm (Obj.keys o) := by
  unfold objectKeys
  have h1 : ((((Obj.keys o).filterMap arrayIndex).insertionSort (· ≤ ·)).map Nat.repr).Perm
      ((Obj.keys o).filter (fun k => (arrayIndex k).isSome)) := by
    rw [← map_repr_filterMap_arrayIndex]
    exact (List.perm_insertionSort _ _).map _
  have h2 : (Obj.keys o).filter (fun k => (arrayIndex k).isNone) =
      (Obj.keys o).filter (fun k => !(arrayIndex k).isSome) := by
    congr 1
    funext k
    cases arrayIndex k <;> rfl
  rw [h2]
  exact (h1.append_right _).trans (List.filter_append_perm _ _)

theorem mem_objectKeys {α : Type} (o : Obj α) (k : String) :
    k ∈ objectKeys o ↔ k ∈ Obj.keys o :=
  (objectKeys_perm o).mem_iff

theorem nodup_objectKeys {α : Type} (o : Obj α) (h : (Obj.keys o).Nodup) :
    (objectKeys o).Nodup :=
  (objectKeys_perm o).nodup_iff.mpr h

theorem length_objectKeys {α : Type} (o : Obj α) : (objectKeys o).length = o.length := by
  rw [(objectKeys_perm o).length_eq, Obj.keys, List.length_map]

/-! # The grouping built by `fetchImages` -/

theorem clusters_fetchImages (s : State) (ok : Bool) (total : Int) (images : List Image) :
    (fetchImages s (.response ok (.ok ⟨total, images⟩))).1.clusters = groupImages images := rfl

theorem groupKey_num {img : Image} {k : String} (h : groupKey img = some k) :
    ∃ n, img.cluster_id = .num n ∧ numberToString n = k := by
  cases hc : img.cluster_id with
  | undefined => simp [groupKey, hc] at h
  | null => simp [groupKey, hc] at h
  | num n => exact ⟨n, rfl, by simpa [groupKey, hc] using h⟩

theorem mem_groupImages {images : List Image} {k : String} {g : List Image}
    (h : (k, g) ∈ groupImages images) :
    g = images.filter (fun i => groupKey i = some k) ∧ g ≠ [] := by
  have hget := Obj.get_of_mem _ k g (nodup_keys_groupImages images) h
  rw [get_groupImages] at hget
  split at hget
  · exact absurd hget (by simp)
  · next hne =>
    simp only [Option.some.injEq] at hget
    exact ⟨hget.symm, by rw [← hget]; exact hne⟩

/-- C1: the groups built by `fetchImages` partition the images that have a cluster id.  The
property names are pairwise distinct; no group is empty and a group holds only images of the
list whose `cluster_id` is the number the group is keyed by; an image of the list with a
cluster id occurs in the group keyed by that id as often as in the list (once, for a list
without repetition) and in no other group; an image whose `cluster_id` is `null` or absent
occurs in no group.  For the example list the result is the single group `0` holding images
1 and 2, and the cluster count is 1. -/
theorem C1_fetchImages_groups_partition (s : State) (ok : Bool) (total : Int)
    (images : List Image) :
    (Obj.keys (fetchImages s (.response ok (.ok ⟨total, images⟩))).1.clusters).Nodup ∧
    (∀ k g, (k, g) ∈ (fetchImages s (.response ok (.ok ⟨total, images⟩))).1.clusters →
      g ≠ [] ∧
      ∀ img ∈ g, img ∈ images ∧ ∃ n, img.cluster_id = .num n ∧ numberToString n = k) ∧
    (∀ img n, img ∈ images → img.cluster_id = .num n →
      ∃ g,
        (numberToString n, g) ∈
          (fetchImages s (.response ok (.ok ⟨total, images⟩))).1.clusters ∧
        g.count img = images.count img ∧
        ∀ k' g',
          (k', g') ∈ (fetchImages s (.response ok (.ok ⟨total, images⟩))).1.clusters →
          img ∈ g' → k' = numberToString n ∧ g' = g) ∧
    (∀ img, img.cluster_id = .null ∨ img.cluster_id = .undefined →
      ∀ k g, (k, g) ∈ (fetchImages s (.response ok (.ok ⟨total, images⟩))).1.clusters →
        img ∉ g) ∧
    (fetchImages s (.response ok (.ok ⟨total, exampleImages⟩))).1.clusters =
      [("0", [⟨1, "a.png", "/a.png", .num 0⟩, ⟨2, "b.png", "/b.png", .num 0⟩])] ∧
    clusterCount (fetchImages s (.response ok (.ok ⟨total, exampleImages⟩))).1.clusters =
      1 := by
  simp only [clusters_fetchImages]
  have hmem : ∀ k g, (k, g) ∈ groupImages images →
      g ≠ [] ∧
      ∀ img ∈ g, img ∈ images ∧ ∃ n, img.cluster_id = .num n ∧ numberToString n = k := by
    intro k g h
    obtain ⟨hg, hne⟩ := mem_groupImages h
    refine ⟨hne, ?_⟩
    intro img himg
    rw [hg, List.mem_filter] at himg
    exact ⟨himg.1, groupKey_num (by simpa using himg.2)⟩
  refine ⟨nodup_keys_groupImages images, hmem, ?_, ?_, by decide, by decide⟩
  · intro img n himg hc
    have hkey : groupKey img = some (numberToString n) := (groupKey_eq_iff img n).mpr hc
    have hin : img ∈ images.filter (fun i => groupKey i = some (numberToString n)) := by
      rw [List.mem_filter]
      exact ⟨himg, by simpa using hkey⟩
    have hget := get_groupImages images (numberToString n)
    rw [if_neg (List.ne_nil_of_mem hin)] at hget
    refine ⟨_, Obj.mem_of_get _ _ _ hget, ?_, ?_⟩
    · exact List.count_filter (by simpa using hkey)
    · intro k' g' hg' himg'
      obtain ⟨n', hn', hk'⟩ := ((hmem k' g' hg').2 img himg').2
      rw [hc] at hn'
      cases hn'
      subst hk'
      have h2 := Obj.get_of_mem _ _ g' (nodup_keys_groupImages images) hg'
      rw [hget] at h2
      exact ⟨rfl, (Option.some.inj h2).symm⟩
  · intro img hnull k g hg himg
    obtain ⟨n, hn, _⟩ := ((hmem k g hg).2 img himg).2
    rcases hnull with h | h <;> rw [h] at hn <;> cases hn

/-- C1 at the example list: image 1 lies in the list with cluster id 0, so it occurs exactly
once in group `0` and in no other group. -/
theorem C1_fetchImages_groups_partition_witness :
    ∃ g,
      ("0", g) ∈
        (fetchImages initialState (.response true (.ok ⟨3, exampleImages⟩))).1.clusters ∧
      g.count ⟨1, "a.png", "/a.png", .num 0⟩ = 1 ∧
      ∀ k' g', (k', g') ∈
          (fetchImages initialState (.response true (.ok ⟨3, exampleImages⟩))).1.clusters →
        (⟨1, "a.png", "/a.png", .num 0⟩ : Image) ∈ g' → k' = "0" ∧ g' = g :=
  (C1_fetchImages_groups_partition initialState true 3 exampleImages).2.2.1
    ⟨1, "a.png", "/a.png", .num 0⟩ 0 (by decide) rfl

/-- C2: the array `fetchImages` stores under the key of cluster id `c` is the sublist of the
source list made of the images whose `cluster_id` is `c`, in source order; there is no such
property when the list has no image with that id. -/
theorem C2_fetchImages_group_is_source_sublist (s : State) (ok : Bool) (total : Int)
    (images : List Image) (c : Int) :
    Obj.get (fetchImages s (.response ok (.ok ⟨total, images⟩))).1.clusters (numberToString c) =
      if images.filter (fun img => img.cluster_id = .num c) = [] then none
      else some (images.filter (fun img => img.cluster_id = .num c)) := by
  have hfilter : images.filter (fun i => groupKey i = some (numberToString c)) =
      images.filter (fun img => img.cluster_id = .num c) := by
    apply List.filter_congr
    intro img _
    simp [groupKey_eq_iff]
  rw [clusters_fetchImages, get_groupImages, hfilter]

/-! # Download file names -/

theorem numberToString_natCast (n : Nat) : numberToString (n : Int) = Nat.repr n := by
  have h : ¬ ((n : Int) < 0) := by omega
  simp [numberToString, h]

/-! ## Binary64 rounding below and above `2 ^ 53` -/

theorem exponentFrom_of_lt (c : Nat) (h : c < 2 ^ 53) : exponentFrom c c 0 = 0 := by
  cases c with
  | zero => rfl
  | succ k =>
    have h0 : (k + 1) / 2 ^ 0 < 2 ^ 53 := by simpa using h
    simp only [exponentFrom, h0, if_true]

theorem roundBinary64_of_lt (c : Nat) (h : c < 2 ^ 53) : roundBinary64 c = c := by
  simp [roundBinary64, exponentFrom_of_lt c h, Nat.mod_one]

theorem exponentFrom_spec (c : Nat) : ∀ fuel e : Nat,
    exponentFrom c fuel e = e ∨
      (e < exponentFrom c fuel e ∧ 2 ^ 53 ≤ c / 2 ^ (exponentFrom c fuel e - 1)) := by
  intro fuel
  induction fuel with
  | zero => intro e; left; rfl
  | succ fuel ih =>
    intro e
    by_cases hlt : c / 2 ^ e < 2 ^ 53
    · left
      simp only [exponentFrom, hlt, if_true]
    · right
      have hstep : exponentFrom c (fuel + 1) e = exponentFrom c fuel (e + 1) := by
        simp only [exponentFrom, hlt, if_false]
      rw [hstep]
      rcases ih (e + 1) with h | ⟨h1, h2⟩
      · rw [h]
        exact ⟨by omega, by simpa using Nat.le_of_not_lt hlt⟩
      · exact ⟨by omega, h2⟩

theorem le_roundBinary64 (c : Nat) (h : 2 ^ 53 ≤ c) : 2 ^ 53 ≤ roundBinary64 c := by
  have hq : 2 ^ 53 ≤ c / 2 ^ exponentFrom c c 0 * 2 ^ exponentFrom c c 0 := by
    rcases exponentFrom_spec c c 0 with h0 | ⟨hpos, hprev⟩
    · rw [h0]
      simpa using h
    · obtain ⟨e, he⟩ : ∃ e, exponentFrom c c 0 = e + 1 := ⟨exponentFrom c c 0 - 1, by omega⟩
      rw [he] at hprev ⊢
      simp only [Nat.add_sub_cancel] at hprev
      have h1 : 2 ^ 53 * 2 ^ e ≤ c := (Nat.le_div_iff_mul_le (by positivity)).mp hprev
      have h2 : 2 ^ 52 ≤ c / 2 ^ (e + 1) := by
        rw [Nat.le_div_iff_mul_le (by positivity)]
        calc 2 ^ 52 * 2 ^ (e + 1) = 2 ^ 53 * 2 ^ e := by ring
          _ ≤ c := h1
      have h3 : 2 ≤ 2 ^ (e + 1) := by
        calc 2 = 2 ^ 1 := by norm_num
          _ ≤ 2 ^ (e + 1) := Nat.pow_le_pow_right (by norm_num) (by omega)
      calc 2 ^ 53 = 2 ^ 52 * 2 := by norm_num
        _ ≤ c / 2 ^ (e + 1) * 2 ^ (e + 1) := Nat.mul_le_mul h2 h3
  unfold roundBinary64
  simp only []
  split
  · calc 2 ^ 53 ≤ c / 2 ^ exponentFrom c c 0 * 2 ^ exponentFrom c c 0 := hq
      _ ≤ (c / 2 ^ exponentFrom c c 0 + 1) * 2 ^ exponentFrom c c 0 :=
        Nat.mul_le_mul_right _ (by omega)
  · exact hq

/-- Only `x` itself rounds to a number `x` below `2 ^ 53`. -/
theorem eq_of_roundBinary64_eq (c x : Nat) (hx : x < 2 ^ 53) (h : roundBinary64 c = x) :
    c = x := by
  by_cases hc : c < 2 ^ 53
  · rw [roundBinary64_of_lt c hc] at h
    exact h
  · have := le_roundBinary64 c (by omega)
    omega

theorem shortestAt_rounds (x j c : Nat) (h : shortestAt x j = some c) :
    roundBinary64 c = x := by
  unfold shortestAt at h
  simp only [] at h
  split at h
  · next hboth =>
    simp only [Bool.and_eq_true, decide_eq_true_eq] at hboth
    split at h
    · cases h; exact hboth.1.2
    · split at h
      · cases h; exact hboth.2
      · split at h
        · cases h; exact hboth.1.2
        · cases h; exact hboth.2
  · split at h
    · next hlo =>
      simp only [Bool.and_eq_true, decide_eq_true_eq] at hlo
      cases h; exact hlo.2
    · split at h
      · next hhi =>
        simp only [decide_eq_true_eq] at hhi
        cases h; exact hhi
      · exact absurd h (by simp)

theorem shortestFrom_rounds (x : Nat) : ∀ j : Nat,
    shortestFrom x j = x ∨ roundBinary64 (shortestFrom x j) = x := by
  intro j
  induction j with
  | zero => left; rfl
  | succ j ih =>
    cases hat : shortestAt x (j + 1) with
    | none => simpa [shortestFrom, hat] using ih
    | some c =>
      right
      simpa [shortestFrom, hat] using shortestAt_rounds x (j + 1) c hat

theorem shortestDecimal_of_lt (x : Nat) (hx : x < 2 ^ 53) : shortestDecimal x = x := by
  unfold shortestDecimal
  rcases shortestFrom_rounds x ((Nat.toDigits 10 x).length - 1) with h | h
  · exact h
  · exact eq_of_roundBinary64_eq _ x hx h

theorem magnitudeToString_of_lt (x : Nat) (hx : x < 2 ^ 53) :
    magnitudeToString x = Nat.repr x := by
  have h21 : x < 10 ^ 21 := by
    calc x < 2 ^ 53 := hx
      _ ≤ 10 ^ 21 := by norm_num
  simp only [magnitudeToString, shortestDecimal_of_lt x hx, h21, if_true]

theorem toNumber_natCast_of_lt (n : Nat) (h : n < 2 ^ 53) : toNumber (n : Int) = .int n := by
  have h0 : ¬ ((n : Int) < 0) := by omega
  simp [toNumber, roundBinary64_of_lt n h, exponentFrom_of_lt n h, h0]

theorem downloadName_of_lt (n : Nat) (h : n < 2 ^ 53) :
    downloadName (numberToString n) = "group_" ++ Nat.repr (n + 1) ++ ".zip" := by
  have hparse : parseInt (numberToString n) = .int n := by
    simp [parseInt, parseIntMath_numberToString, toNumber_natCast_of_lt n h]
  have hsum : JSNumber.toString (JSNumber.add (.int n) (.int 1)) = Nat.repr (n + 1) := by
    by_cases hlt : n + 1 < 2 ^ 53
    · have h1 : toNumber ((n : Int) + 1) = .int ((n + 1 : Nat) : Int) := by
        have := toNumber_natCast_of_lt (n + 1) hlt
        simpa using this
      have h0 : ¬ (((n + 1 : Nat) : Int) < 0) := by omega
      simp only [JSNumber.add, h1, JSNumber.toString, h0, if_false, Int.natAbs_ofNat]
      exact magnitudeToString_of_lt (n + 1) hlt
    · have hn : n = 9007199254740991 := by
        norm_num at h hlt
        omega
      subst hn
      decide
  rw [downloadName, hparse, hsum]

/-- C8 as stated fails at the cluster id `2 ^ 53 = 9007199254740992`: the sum
`parseInt(clusterId) + 1` is rounded to binary64 and stays `2 ^ 53`, so the file is named
`group_9007199254740992.zip` and not after the decimal of `n + 1`. -/
theorem C8_file_name_at_2_pow_53 :
    (downloadCluster initialState (numberToString 9007199254740992)
        (.response true (.ok ()))).2 =
      [.request (.downloadCluster "9007199254740992"),
       .saveFile "group_9007199254740992.zip"] ∧
    (downloadCluster initialState (numberToString 9007199254740992)
        (.response true (.ok ()))).2 ≠
      [.request (.downloadCluster (numberToString 9007199254740992)),
       .saveFile ("group_" ++ Nat.repr (9007199254740992 + 1) ++ ".zip")] := by
  decide

/-- C8, amended: for a cluster id `n` with `0 ≤ n < 2 ^ 53`, held as the decimal key
`numberToString n`, a successful `downloadCluster` requests that cluster and saves the file
`group_<n+1>.zip`, the number written in decimal; key `0` gives `group_1.zip` and key `4`
gives `group_5.zip`. -/
theorem C8_downloadCluster_file_name_below_2_pow_53 (s : State) (n : Nat) (h : n < 2 ^ 53) :
    (downloadCluster s (numberToString n) (.response true (.ok ()))).2 =
      [.request (.downloadCluster (numberToString n)),
       .saveFile ("group_" ++ Nat.repr (n + 1) ++ ".zip")] ∧
    downloadName "0" = "group_1.zip" ∧ downloadName "4" = "group_5.zip" := by
  refine ⟨?_, by decide, by decide⟩
  simp only [downloadCluster, downloadName_of_lt n h]

/-- C8, amended, at cluster id 4 and at the largest id of the range, `2 ^ 53 - 1`. -/
theorem C8_downloadCluster_file_name_below_2_pow_53_witness :
    (downloadCluster initialState (numberToString (4 : Nat)) (.response true (.ok ()))).2 =
      [.request (.downloadCluster (numberToString (4 : Nat))),
       .saveFile ("group_" ++ Nat.repr (4 + 1) ++ ".zip")] ∧
    (downloadCluster initialState (numberToString (9007199254740991 : Nat))
        (.response true (.ok ()))).2 =
      [.request (.downloadCluster (numberToString (9007199254740991 : Nat))),
       .saveFile ("group_" ++ Nat.repr (9007199254740991 + 1) ++ ".zip")] :=
  ⟨(C8_downloadCluster_file_name_below_2_pow_53 initialState 4 (by norm_num)).1,
   (C8_downloadCluster_file_name_below_2_pow_53 initialState 9007199254740991
      (by norm_num)).1⟩

/-! # Sensitivity labels -/

/-- C3: `getSensitivityLabel` depends on the value alone and its thresholds are inclusive
upper bounds: up to 0.15 `Very Strict`, above that up to 0.20 `Strict`, up to 0.25
`Balanced`, up to 0.30 `Loose`, above 0.30 `Very Loose`.  In particular 0.10, 0.25 and 0.40
give `Very Strict`, `Balanced` and `Very Loose`, and the seven slider values get the labels
listed. -/
theorem C3_getSensitivityLabel_thresholds (v : ℚ) :
    (v ≤ 0.15 → getSensitivityLabel v = "Very Strict") ∧
    (0.15 < v → v ≤ 0.20 → getSensitivityLabel v = "Strict") ∧
    (0.20 < v → v ≤ 0.25 → getSensitivityLabel v = "Balanced") ∧
    (0.25 < v → v ≤ 0.30 → getSensitivityLabel v = "Loose") ∧
    (0.30 < v → getSensitivityLabel v = "Very Loose") ∧
    getSensitivityLabel 0.10 = "Very Strict" ∧
    getSensitivityLabel 0.25 = "Balanced" ∧
    getSensitivityLabel 0.40 = "Very Loose" ∧
    sliderValues.map getSensitivityLabel =
      ["Very Strict", "Very Strict", "Strict", "Balanced", "Loose", "Very Loose",
        "Very Loose"] := by
  refine ⟨?_, ?_, ?_, ?_, ?_, ?_, ?_, ?_, ?_⟩
  · intro h
    simp [getSensitivityLabel, h]
  · intro h1 h2
    simp [getSensitivityLabel, not_le.mpr h1, h2]
  · intro h1 h2
    have h0 : ¬ v ≤ 0.15 := by
      intro h; norm_num at h h1; linarith
    simp [getSensitivityLabel, h0, not_le.mpr h1, h2]
  · intro h1 h2
    have h0 : ¬ v ≤ 0.15 := by
      intro h; norm_num at h h1; linarith
    have h3 : ¬ v ≤ 0.20 := by
      intro h; norm_num at h h1; linarith
    simp [getSensitivityLabel, h0, h3, not_le.mpr h1, h2]
  · intro h1
    have h0 : ¬ v ≤ 0.15 := by
      intro h; norm_num at h h1; linarith
    have h3 : ¬ v ≤ 0.20 := by
      intro h; norm_num at h h1; linarith
    have h4 : ¬ v ≤ 0.25 := by
      intro h; norm_num at h h1; linarith
    simp [getSensitivityLabel, h0, h3, h4, not_le.mpr h1]
  · norm_num [getSensitivityLabel]
  · norm_num [getSensitivityLabel]
  · norm_num [getSensitivityLabel]
  · norm_num [sliderValues, getSensitivityLabel]

/-- C3 at the boundary values: 0.15 is still `Very Strict`, 0.20 is `Strict` and 0.30 is
`Loose`. -/
theorem C3_getSensitivityLabel_thresholds_witness :
    getSensitivityLabel 0.15 = "Very Strict" ∧ getSensitivityLabel 0.20 = "Strict" ∧
    getSensitivityLabel 0.30 = "Loose" :=
  ⟨(C3_getSensitivityLabel_thresholds 0.15).1 (by norm_num),
   (C3_getSensitivityLabel_thresholds 0.20).2.1 (by norm_num) (by norm_num),
   (C3_getSensitivityLabel_thresholds 0.30).2.2.2.1 (by norm_num) (by norm_num)⟩

/-! # Notifications -/

/-- C4, what the code does: with no notification visible, `showToast(A)` at `t0` and
`showToast(B)` at `t1`, where `t0 < t1 < t0 + 3000`, leave B visible from `t1` until just
before `t0 + 3000`; from `t0 + 3000` on, which is before `t1 + 3000`, nothing is visible.  The
second call leaves `toast.show` true, so the effect is skipped and the timeout started for A
stays in place. -/
theorem C4_showToast_keeps_first_timeout (t0 t1 : Nat) (a b typeA typeB : String)
    (h01 : t0 < t1) (h1 : t1 < t0 + 3000) :
    (∀ t, t1 ≤ t → t < t0 + 3000 →
      (((ToastCell.initial.showToast t0 a typeA).showToast t1 b typeB).advance t).toast =
        { show_ := true, message := b, type := typeB }) ∧
    (∀ t, t0 + 3000 ≤ t →
      (((ToastCell.initial.showToast t0 a typeA).showToast t1 b typeB).advance t).toast.show_ =
        false) := by
  have hc : (ToastCell.initial.showToast t0 a typeA).showToast t1 b typeB =
      { now := t1, toast := { show_ := true, message := b, type := typeB },
        timer := some
          { due := t0 + 3000, captured := { show_ := true, message := a, type := typeA } } } := by
    have hn : ¬ (t0 + 3000 ≤ t1) := by omega
    simp [ToastCell.showToast, ToastCell.initial, ToastCell.advance, ToastCell.render, hn]
  rw [hc]
  constructor
  · intro t _ ht
    have hn : ¬ (t0 + 3000 ≤ t) := by omega
    simp [ToastCell.advance, hn]
  · intro t ht
    simp [ToastCell.advance, ToastCell.fire, ToastCell.render, ht]

/-- C4 at `t0 = 0`, `t1 = 1000`: B is visible at time 2999 and gone at time 3000, one second
before the 4000 the claim gives. -/
theorem C4_showToast_keeps_first_timeout_witness :
    (((ToastCell.initial.showToast 0 "A" "success").showToast 1000 "B" "error").advance
        2999).toast = { show_ := true, message := "B", type := "error" } ∧
    (((ToastCell.initial.showToast 0 "A" "success").showToast 1000 "B" "error").advance
        3000).toast.show_ = false :=
  ⟨(C4_showToast_keeps_first_timeout 0 1000 "A" "B" "success" "error" (by decide)
      (by decide)).1 2999 (by decide) (by decide),
   (C4_showToast_keeps_first_timeout 0 1000 "A" "B" "success" "error" (by decide)
      (by decide)).2 3000 (by decide)⟩

/-! # `performClustering` on a refusal -/

/-- C5 as stated fails: for the detail `Need at least 2 images` the notification text is not
that string. -/
theorem C5_message_is_not_detail_verbatim :
    (performClustering initialState
        (.response false (.ok ⟨some "Need at least 2 images", none⟩))
        (.rejected "")).1.toast.message ≠ "Need at least 2 images" := by
  decide

/-- C5, amended: when the service answers with a non-success status and a body whose `detail`
is a non-empty string `d`, `performClustering` sends the clustering request and nothing else,
and ends with `loading` false and a visible notification of type `error` whose text is the
marker `❌ ` followed by `d` verbatim; when the body carries no detail, or an empty one, the
text is `❌ Clustering failed`. -/
theorem C5_performClustering_error_message (s : State) (d : String)
    (num_clusters : Option Int) (images : Fetched ImagesData) (hd : d ≠ "") :
    (performClustering s (.response false (.ok ⟨some d, num_clusters⟩)) images).1.toast =
      { show_ := true, message := "❌ " ++ d, type := "error" } ∧
    (performClustering s (.response false (.ok ⟨some d, num_clusters⟩)) images).1.loading =
      false ∧
    requestsOf (performClustering s (.response false (.ok ⟨some d, num_clusters⟩)) images).2 =
      [.cluster s.epsValue 2] ∧
    (performClustering s (.response false (.ok ⟨none, num_clusters⟩)) images).1.toast =
      { show_ := true, message := "❌ Clustering failed", type := "error" } ∧
    (performClustering s (.response false (.ok ⟨some "", num_clusters⟩)) images).1.toast =
      { show_ := true, message := "❌ Clustering failed", type := "error" } := by
  simp [performClustering, performClusteringTry, showToast, requestsOf, hd]

/-- C5, amended, at the detail of the specification's scenario. -/
theorem C5_performClustering_error_message_witness :
    (performClustering initialState
        (.response false (.ok ⟨some "Need at least 2 images", none⟩))
        (.rejected "")).1.toast =
      { show_ := true, message := "❌ Need at least 2 images", type := "error" } :=
  (C5_performClustering_error_message initialState "Need at least 2 images" none
    (.rejected "") (by decide)).1

/-! # `clearAll` -/

/-- C6 as stated fails: when the user confirms and the request is rejected with a transport
error, the groups, the statistics and the count are what they were. -/
theorem C6_clearAll_rejected_keeps_state :
    (clearAll populatedState true (.rejected "Failed to fetch")).1.clusters ≠ [] ∧
    (clearAll populatedState true (.rejected "Failed to fetch")).1.clusterStats ≠ [] ∧
    (clearAll populatedState true (.rejected "Failed to fetch")).1.totalImages = 1 := by
  simp [clearAll, populatedState]

/-- C6, amended: when the user confirms and the clear request is answered, with a success or
a failure status, `clearAll` ends with no groups, no statistics and a total of 0; when the
request is rejected with a transport error the state is left as it was. -/
theorem C6_clearAll_resets_on_any_response (s : State) (ok : Bool) (body : Except String Unit)
    (message : String) :
    (clearAll s true (.response ok body)).1.clusters = [] ∧
    (clearAll s true (.response ok body)).1.clusterStats = [] ∧
    (clearAll s true (.response ok body)).1.totalImages = 0 ∧
    (clearAll s true (.rejected message)).1 = s := by
  simp [clearAll, showToast]

/-! # The "Cluster Images" button -/

/-- C9: in a state with `totalImages < 2` a click on the "Cluster Images" button causes no
effect at all, so no request goes to `/cluster`, and leaves the state as it was. -/
theorem C9_no_cluster_request_below_two_images (s : State) (r : Fetched ClusterBody)
    (images : Fetched ImagesData) (h : s.totalImages < 2) :
    (clickClusterImages s r images).2 = [] ∧ (clickClusterImages s r images).1 = s := by
  simp [clickClusterImages, clusterButtonDisabled, h]

/-- C9 at the freshly mounted component, which holds no image. -/
theorem C9_no_cluster_request_below_two_images_witness :
    (clickClusterImages initialState (.response true (.ok ⟨none, some 3⟩))
        (.rejected "")).2 = [] ∧
    (clickClusterImages initialState (.response true (.ok ⟨none, some 3⟩))
        (.rejected "")).1 = initialState :=
  C9_no_cluster_request_below_two_images initialState _ _ (by decide)

/-! # Uploads -/

theorem requestsOf_append (xs ys : List Effect) :
    requestsOf (xs ++ ys) = requestsOf xs ++ requestsOf ys := by
  induction xs with
  | nil => rfl
  | cons e rest ih => cases e <;> simp [requestsOf, ih]

theorem requestsOf_uploadLoop (files : List (String × Fetched Unit)) :
    requestsOf (uploadLoop files) = files.map (fun f => Request.upload f.1) := by
  induction files with
  | nil => rfl
  | cons f rest ih =>
    obtain ⟨file, r⟩ := f
    cases r <;> simp [uploadLoop, uploadOne, requestsOf, requestsOf_append, ih]

theorem requestsOf_fetchImages (s : State) (r : Fetched ImagesData) :
    ∃ statsIds : List String,
      requestsOf (fetchImages s r).2 =
        Request.getImages :: statsIds.map Request.getClusterStats := by
  match r with
  | .rejected _ => exact ⟨[], by simp [fetchImages, requestsOf]⟩
  | .response _ (.error _) => exact ⟨[], by simp [fetchImages, requestsOf]⟩
  | .response _ (.ok data) =>
    refine ⟨objectKeys (groupImages data.images), ?_⟩
    have h : ∀ ks : List String,
        requestsOf (ks.map (fun clusterId => Effect.request (.getClusterStats clusterId))) =
          ks.map Request.getClusterStats := by
      intro ks
      induction ks with
      | nil => rfl
      | cons k rest ih => simp [requestsOf, ih]
    simp only [fetchImages, requestsOf, h]

/-- C10: for a non-empty file list, whatever each upload request delivers, the requests of
`handleFileUpload` are one upload per file in list order, then a single `/images` request,
then only the statistics requests that refresh starts; it ends with `loading` false and a
visible `success` notification whose count is the number of files. -/
theorem C10_handleFileUpload_uploads_every_file (s : State)
    (files : List (String × Fetched Unit)) (images : Fetched ImagesData) (hne : files ≠ []) :
    (∃ statsIds : List String,
      requestsOf (handleFileUpload s files images).2 =
        files.map (fun f => Request.upload f.1) ++
          Request.getImages :: statsIds.map Request.getClusterStats) ∧
    (handleFileUpload s files images).1.loading = false ∧
    (handleFileUpload s files images).1.toast =
      { show_ := true, message := "✅ Uploaded " ++ Nat.repr files.length ++ " image(s)",
        type := "success" } := by
  have hlen : ¬ files.length = 0 := by
    intro h
    exact hne (List.length_eq_zero.mp h)
  obtain ⟨statsIds, hreq⟩ := requestsOf_fetchImages { s with loading := true } images
  refine ⟨⟨statsIds, ?_⟩, ?_, ?_⟩
  · simp only [handleFileUpload, hlen, if_false, requestsOf_append, requestsOf_uploadLoop, hreq]
  · simp [handleFileUpload, hlen, showToast]
  · simp [handleFileUpload, hlen, showToast, numberToString_natCast]

/-- C10 with three files of which the first and the last upload are rejected. -/
theorem C10_handleFileUpload_uploads_every_file_witness :
    requestsOf (handleFileUpload initialState
        [("a.png", .rejected "Failed to fetch"), ("b.png", .response true (.ok ())),
          ("c.png", .rejected "Failed to fetch")]
        (.response true (.ok ⟨3, []⟩))).2 =
      [.upload "a.png", .upload "b.png", .upload "c.png", .getImages] ∧
    (handleFileUpload initialState
        [("a.png", .rejected "Failed to fetch"), ("b.png", .response true (.ok ())),
          ("c.png", .rejected "Failed to fetch")]
        (.response true (.ok ⟨3, []⟩))).1.toast =
      { show_ := true, message := "✅ Uploaded 3 image(s)", type := "success" } :=
  ⟨by simp [handleFileUpload, uploadLoop, uploadOne, fetchImages, requestsOf, groupImages,
      objectKeys, Obj.keys],
   (C10_handleFileUpload_uploads_every_file initialState
      [("a.png", .rejected "Failed to fetch"), ("b.png", .response true (.ok ())),
        ("c.png", .rejected "Failed to fetch")]
      (.response true (.ok ⟨3, []⟩)) (by simp)).2.2⟩

/-! # Statistics fetches -/

theorem settleStats_spec (outcome : String → Fetched ClusterStats) :
    ∀ (order : List String) (s : State),
      ∃ s', settleStats outcome order s = .ok s' ∧ s'.clusters = s.clusters ∧
        ∀ k, Obj.get s'.clusterStats k =
          if k ∈ order then
            (match (outcome k).value with
              | some data => some data
              | none => Obj.get s.clusterStats k)
          else Obj.get s.clusterStats k := by
  intro order
  induction order with
  | nil => intro s; exact ⟨s, rfl, rfl, by simp⟩
  | cons k0 rest ih =>
    intro s
    cases hv : (outcome k0).value with
    | none =>
      have hstep : fetchClusterStats s k0 (outcome k0) =
          .ok (s, [.consoleError "Error fetching stats:"]) := by
        cases ho : outcome k0 with
        | rejected m => simp [fetchClusterStats, fetchClusterStatsTry]
        | response ok body =>
          cases body with
          | error m => simp [fetchClusterStats, fetchClusterStatsTry]
          | ok data => simp [ho, Fetched.value] at hv
      obtain ⟨s', hrun, hcl, hget⟩ := ih s
      refine ⟨s', by simp [settleStats, hstep, hrun], hcl, ?_⟩
      intro k
      rw [hget k]
      by_cases hk : k = k0
      · subst hk
        simp [hv]
      · simp [hk]
    | some data =>
      have hstep : fetchClusterStats s k0 (outcome k0) =
          .ok ({ s with clusterStats := Obj.set s.clusterStats k0 data }, []) := by
        cases ho : outcome k0 with
        | rejected m => simp [ho, Fetched.value] at hv
        | response ok body =>
          cases body with
          | error m => simp [ho, Fetched.value] at hv
          | ok data' =>
            simp only [ho, Fetched.value, Option.some.injEq] at hv
            subst hv
            simp [fetchClusterStats, fetchClusterStatsTry]
      obtain ⟨s', hrun, hcl, hget⟩ :=
        ih { s with clusterStats := Obj.set s.clusterStats k0 data }
      refine ⟨s', by simp [settleStats, hstep, hrun], hcl, ?_⟩
      intro k
      rw [hget k]
      by_cases hk : k = k0
      · subst hk
        simp [hv, Obj.get_set_self]
      · simp [hk, Obj.get_set_other _ _ _ _ hk]

/-- C7 as stated fails: in a state that already holds statistics for cluster `0`, a refresh
whose statistics request for `0` is rejected ends with that earlier entry still in the map. -/
theorem C7_failed_fetch_keeps_earlier_entry :
    ∃ s', settleStats statsOutcome ["1", "0"]
        (fetchImages populatedState (.response true (.ok ⟨2, twoClusterImages⟩))).1 = .ok s' ∧
      Obj.get s'.clusterStats "0" = some ⟨90, "good"⟩ ∧
      Obj.get s'.clusterStats "0" ≠ none := by
  refine ⟨_, rfl, ?_, ?_⟩ <;>
    simp [fetchImages, populatedState, initialState, Obj.set, Obj.get]

/-- C7, amended: a refresh sends one statistics request per property name of the groups it
built.  When these requests settle in any order, the one for `c` failing and the others
succeeding, the run ends without an error, the entry of the map for `c` is what it was before
the refresh (absent when there was none), every other cluster id of the list has the fetched
statistics, and the groups are the ones built from the list. -/
theorem C7_failed_stats_fetch_is_local (s : State) (ok : Bool) (total : Int)
    (images : List Image) (outcome : String → Fetched ClusterStats) (order : List String)
    (c : String)
    (horder : order.Perm (objectKeys (groupImages images)))
    (hfail : (outcome c).value = none)
    (hrest : ∀ k ∈ objectKeys (groupImages images), k ≠ c → (outcome k).value ≠ none) :
    requestsOf (fetchImages s (.response ok (.ok ⟨total, images⟩))).2 =
      .getImages :: (objectKeys (groupImages images)).map Request.getClusterStats ∧
    ∃ s', settleStats outcome order (fetchImages s (.response ok (.ok ⟨total, images⟩))).1 =
        .ok s' ∧
      Obj.get s'.clusterStats c = Obj.get s.clusterStats c ∧
      (∀ k ∈ objectKeys (groupImages images), k ≠ c →
        Obj.get s'.clusterStats k = (outcome k).value) ∧
      s'.clusters = groupImages images := by
  constructor
  · have h : ∀ ks : List String,
        requestsOf (ks.map (fun clusterId => Effect.request (.getClusterStats clusterId))) =
          ks.map Request.getClusterStats := by
      intro ks
      induction ks with
      | nil => rfl
      | cons k rest ih => simp [requestsOf, ih]
    simp only [fetchImages, requestsOf, h]
  · obtain ⟨s', hrun, hcl, hget⟩ := settleStats_spec outcome order
      (fetchImages s (.response ok (.ok ⟨total, images⟩))).1
    refine ⟨s', hrun, ?_, ?_, ?_⟩
    · rw [hget c, hfail]
      simp [fetchImages]
    · intro k hk hkc
      have hmem : k ∈ order := horder.mem_iff.mpr hk
      rw [hget k, if_pos hmem]
      cases hv : (outcome k).value with
      | none => exact absurd hv (hrest k hk hkc)
      | some data => rfl
    · rw [hcl, clusters_fetchImages]

/-- C7, amended, on a fresh component: of the requests for clusters `0` and `1`, settling in
the order `1`, `0`, the one for `0` is rejected; cluster `0` has no statistics afterwards and
cluster `1` has the fetched ones. -/
theorem C7_failed_stats_fetch_is_local_witness :
    ∃ s', settleStats statsOutcome ["1", "0"]
        (fetchImages initialState (.response true (.ok ⟨2, twoClusterImages⟩))).1 = .ok s' ∧
      Obj.get s'.clusterStats "0" = Obj.get initialState.clusterStats "0" ∧
      (∀ k ∈ objectKeys (groupImages twoClusterImages), k ≠ "0" →
        Obj.get s'.clusterStats k = (statsOutcome k).value) ∧
      s'.clusters = groupImages twoClusterImages :=
  (C7_failed_stats_fetch_is_local initialState true 2 twoClusterImages statsOutcome ["1", "0"]
    "0" (by decide) (by simp [statsOutcome, Fetched.value])
    (by
      intro k hk hne
      simp [statsOutcome, hne, Fetched.value])).2

end Results
